/-
Verification of the VoiceTutor live-session orchestrator
(src/alaris/src/components/ui/Header.tsx, VoiceSession component).

The orchestrator is a React component; its behaviour is embedded here as
pure functions over an explicit session state.  JavaScript runtime details
that matter to the claims are modelled explicitly:

* `JSON.parse` of a tool call's `arguments` string is modelled by the
  field `FunctionCall.arguments : Option ArgsMap`: `none` means the string
  does not parse (`JSON.parse` throws), `some m` is the parsed key/value
  object.  A field missing from the object reads as `undefined`, modelled
  by `Option String` lookups.
* `parseInt` over a possibly-missing string returns `NaN` on failure;
  `NaN` compares unequal to everything (including itself), which is why
  `PresentedTopic.optionNumber` is an `Option Nat` (`none` = `NaN`) and is
  compared with `jsNumEq`.
* JavaScript truthiness of a possibly-missing string (`undefined` and `""`
  are falsy) is `jsTruthy`; `a || b` on strings is `jsOrOpt`/`jsOrDefault`.
-/

import Mathlib

namespace VoiceTutor

/-! ## Basic JS-value helpers -/

/-- Truthiness of a possibly-`undefined` string: `undefined` and `""` are falsy. -/
def jsTruthy : Option String → Bool
  | some s => s ≠ ""
  | none => false

/-- Evaluation of `a || b` where both operands are possibly-`undefined` strings. -/
def jsOrOpt (a b : Option String) : Option String :=
  if jsTruthy a then a else b

/-- Evaluation of `a || d` where `d` is a string literal default (as in `args.evidence || ''`). -/
def jsOrDefault (a : Option String) (d : String) : String :=
  match a with
  | some s => if s = "" then d else s
  | none => d

/-- Embedding of `String.prototype.trim`: strip leading and trailing
whitespace (implemented over the character list so that it evaluates by
kernel reduction). -/
def jsTrim (s : String) : String :=
  String.mk
    (((s.data.dropWhile Char.isWhitespace).reverse.dropWhile
        Char.isWhitespace).reverse)

/-- Accumulate decimal digits; any non-digit character yields `none`. -/
def parseDigitsAux : List Char → Nat → Option Nat
  | [], acc => some acc
  | c :: cs, acc =>
      if 48 ≤ c.toNat ∧ c.toNat ≤ 57 then
        parseDigitsAux cs (acc * 10 + (c.toNat - 48))
      else none

/-- Behaviour of `parseInt` applied to a possibly-`undefined` string;
`none` models `NaN` (`parseInt(undefined)` and `parseInt` of a non-numeric
string are both `NaN`).  Restricted to plain decimal digit strings, which
covers every numeric tool argument the component parses. -/
def parseIntJS (s : Option String) : Option Nat :=
  s.bind fun str =>
    match str.data with
    | [] => none
    | c :: cs =>
        if 48 ≤ c.toNat ∧ c.toNat ≤ 57 then
          parseDigitsAux cs (c.toNat - 48)
        else none

/-- JS `===` on numbers where `none` models `NaN` (`NaN` is unequal to everything,
itself included). -/
def jsNumEq : Option Nat → Option Nat → Bool
  | some a, some b => a == b
  | _, _ => false

/-! ## Data model (src/types/session, as used at runtime by the component) -/

/-- Values of the `status` state variable. -/
inductive SessionStatus
  | idle | connecting | connected | paused | ending | error
deriving DecidableEq, Repr

/-- Values of the finer-grained activity tracker (Header.tsx line 192);
every assignment in the source uses one of these five literals. -/
inductive ActivityState
  | greeting | offering_topics | awaiting_selection | discussing | reflecting
deriving DecidableEq, Repr

/-- A transcript entry: `{ role, text, timestamp }`.  `role` is the string
literal `'user'` or `'assistant'` at every creation site. -/
structure TranscriptEntry where
  role : String
  text : String
  timestamp : Nat
deriving DecidableEq, Repr

/-- A skill observation record as pushed by `log_skill_observation`
(Header.tsx lines 349-355); fields read from the parsed args may be
`undefined`, except `evidence` which is defaulted with `|| ''`. -/
structure SkillObservation where
  skill : Option String
  observation : Option String
  evidence : String
  strength_or_struggle : Option String
  timestamp : Nat
deriving DecidableEq, Repr

/-- An open loop record as pushed by `create_open_loop` (lines 359-364). -/
structure SessionOpenLoop where
  topic : Option String
  context : Option String
  priority : String
  timestamp : Nat
deriving DecidableEq, Repr

/-- A visual record as pushed by `display_visual` (lines 368-372). -/
structure SessionVisual where
  type : Option String
  description : Option String
  timestamp : Nat
deriving DecidableEq, Repr

/-- A lesson-plan modification record as pushed by `update_lesson_plan`
(lines 376-380). -/
structure LessonPlanModification where
  modification : Option String
  rationale : Option String
  timestamp : Nat
deriving DecidableEq, Repr

/-- A misconception record as pushed by `flag_misconception` (lines 384-389);
`addressed` is `args.addressed === 'true'`. -/
structure SessionMisconception where
  misconception : Option String
  topic_area : Option String
  addressed : Bool
  timestamp : Nat
deriving DecidableEq, Repr

/-- A presented topic option (lines 400-406).  `optionNumber` is
`parseInt(args.option_number)`, so `none` models `NaN`. -/
structure PresentedTopic where
  optionNumber : Option Nat
  title : Option String
  description : Option String
  isSelected : Bool
  timestamp : Nat
deriving DecidableEq, Repr

/-- The parsed argument object of a tool call: a string-keyed map. -/
def ArgsMap := List (String × String)

/-- Field access `args.k` on the parsed object: `none` models `undefined`. -/
def getField (args : ArgsMap) (k : String) : Option String :=
  (List.find? (fun p => p.1 == k) args).map (fun p => p.2)

/-- A model-initiated tool call.  `arguments` is the result of
`JSON.parse(functionCall.arguments)`: `none` models an unparseable string
(the parse throws). -/
structure FunctionCall where
  name : String
  call_id : String
  arguments : Option ArgsMap

/-- The orchestrator's session state: the React state variables and the
session-data refs of the `VoiceSession` component that the claims concern.
`currentPhase` is the raw string stored by `setCurrentPhase(args.phase)`
(the TypeScript cast does not validate at runtime, and `args.phase` may be
`undefined`). -/
structure SessionState where
  status : SessionStatus
  currentPhase : Option String
  currentActivity : ActivityState
  showTopicSelector : Bool
  transcript : List TranscriptEntry
  visuals : List SessionVisual
  presentedTopics : List PresentedTopic
  selectedTopicOption : Option Nat
  skillObservations : List SkillObservation
  openLoops : List SessionOpenLoop
  lessonPlanMods : List LessonPlanModification
  misconceptions : List SessionMisconception
  error : Option String
  elapsedSeconds : Nat
  sessionId : Option String

/-- The state right after `startSession` has reset everything
(lines 534-552): fresh accumulators, `warm_entry`, `greeting`. -/
def initialSessionState : SessionState where
  status := SessionStatus.connected
  currentPhase := some "warm_entry"
  currentActivity := ActivityState.greeting
  showTopicSelector := false
  transcript := []
  visuals := []
  presentedTopics := []
  selectedTopicOption := none
  skillObservations := []
  openLoops := []
  lessonPlanMods := []
  misconceptions := []
  error := none
  elapsedSeconds := 0
  sessionId := none

/-! ## Outbound traffic -/

/-- Frames the component sends over the data channel. -/
inductive OutMessage
  | functionCallOutput (call_id : String) (success : Bool)
  | responseCreate
  | sessionUpdate (instructions : String)
  | conversationItemCreate (text : String)
  | responseCancel
  | outputAudioBufferClear
  | inputAudioBufferClear
  | responseCreateWithInstructions (instructions : String)
deriving DecidableEq, Repr

/-- Out-of-band HTTP side effects (fire-and-forget from the bridge). -/
inductive SideEffect
  | lessonPlanRequest (topicTitle : String) (userPriorKnowledge : String)
deriving DecidableEq, Repr

/-! ## Tool-Call Bridge (`handleFunctionCall`, lines 334-447) -/

/-- The state mutation performed by the `switch (functionCall.name)` body
(lines 337-429), given the already-parsed argument object.  Returns the new
state together with any fire-and-forget side effects (`select_topic`
triggers the lesson-plan request, line 427). -/
def applyMutation (st : SessionState) (name : String) (args : ArgsMap)
    (now : Nat) : SessionState × List SideEffect :=
  match name with
  | "transition_phase" =>
      let st := { st with currentPhase := getField args "phase" }
      let st :=
        if getField args "phase" == some "reflection" then
          { st with currentActivity := ActivityState.reflecting }
        else if getField args "phase" != some "warm_entry" then
          { st with currentActivity := ActivityState.discussing }
        else st
      (st, [])
  | "log_skill_observation" =>
      ({ st with skillObservations := st.skillObservations ++
          [{ skill := getField args "skill"
             observation := getField args "observation"
             evidence := jsOrDefault (getField args "evidence") ""
             strength_or_struggle := getField args "strength_or_struggle"
             timestamp := now }] }, [])
  | "create_open_loop" =>
      ({ st with openLoops := st.openLoops ++
          [{ topic := getField args "topic"
             context := getField args "context"
             priority := jsOrDefault (getField args "priority") "medium"
             timestamp := now }] }, [])
  | "display_visual" =>
      ({ st with visuals := st.visuals ++
          [{ type := getField args "type"
             description := getField args "description"
             timestamp := now }] }, [])
  | "update_lesson_plan" =>
      ({ st with lessonPlanMods := st.lessonPlanMods ++
          [{ modification := getField args "modification"
             rationale := getField args "rationale"
             timestamp := now }] }, [])
  | "flag_misconception" =>
      ({ st with misconceptions := st.misconceptions ++
          [{ misconception := getField args "misconception"
             topic_area := getField args "topic_area"
             addressed := getField args "addressed" == some "true"
             timestamp := now }] }, [])
  | "present_topic_option" =>
      let n := parseIntJS (getField args "option_number")
      let st := { st with
        showTopicSelector := true
        currentActivity := ActivityState.offering_topics }
      let st := { st with presentedTopics :=
        if st.presentedTopics.any (fun t => jsNumEq t.optionNumber n) then
          st.presentedTopics
        else
          st.presentedTopics ++
            [{ optionNumber := n
               title := getField args "title"
               description := getField args "description"
               isSelected := false
               timestamp := now }] }
      let st :=
        if jsNumEq n (some 3) then
          { st with currentActivity := ActivityState.awaiting_selection }
        else st
      (st, [])
  | "confirm_topic_selection" =>
      let n := parseIntJS (getField args "selected_option")
      ({ st with
         selectedTopicOption := n
         presentedTopics := st.presentedTopics.map (fun t =>
           { t with isSelected := jsNumEq t.optionNumber n }) }, [])
  | "select_topic" =>
      ({ st with currentActivity := ActivityState.discussing },
       [SideEffect.lessonPlanRequest
          (jsOrDefault (getField args "topic_title") "")
          (jsOrDefault (getField args "user_prior_knowledge") "none stated")])
  | _ => (st, [])

/-- The handler `handleFunctionCall` (lines 334-447): parse the arguments string, run
the switch, then — if the data channel is open — send one
`function_call_output` frame echoing `functionCall.call_id` with payload
`{ success: true }` followed by one `response.create` frame.
`none` models the `JSON.parse` exception propagating out of the handler
(there is no try/catch inside it), in which case neither the mutation nor
the sends happen. -/
def handleFunctionCall (st : SessionState) (fc : FunctionCall)
    (channelOpen : Bool) (now : Nat) :
    Option (SessionState × List OutMessage × List SideEffect) :=
  match fc.arguments with
  | none => none
  | some args =>
      let (st', effs) := applyMutation st fc.name args now
      let msgs :=
        if channelOpen then
          [OutMessage.functionCallOutput fc.call_id true,
           OutMessage.responseCreate]
        else []
      some (st', msgs, effs)

/-- The channel frames produced by dispatching one tool call (empty when the
argument parse throws, since the exception aborts the handler before the
sends). -/
def callMessages (st : SessionState) (fc : FunctionCall)
    (channelOpen : Bool) (now : Nat) : List OutMessage :=
  match handleFunctionCall st fc channelOpen now with
  | some (_, msgs, _) => msgs
  | none => []

/-- The state after dispatching one tool call (unchanged when the argument
parse throws: the exception fires before any mutation). -/
def callState (st : SessionState) (fc : FunctionCall)
    (channelOpen : Bool) (now : Nat) : SessionState :=
  match handleFunctionCall st fc channelOpen now with
  | some (st', _, _) => st'
  | none => st

/-- Dispatch a list of tool calls in order (as the `response.done` handler
does for each embedded `function_call` output). -/
def runCalls (st : SessionState) (calls : List FunctionCall)
    (channelOpen : Bool) (now : Nat) : SessionState :=
  calls.foldl (fun s fc => callState s fc channelOpen now) st

/-- The nine call names the bridge's switch recognizes. -/
def recognizedNames : List String :=
  ["transition_phase", "log_skill_observation", "create_open_loop",
   "display_visual", "update_lesson_plan", "flag_misconception",
   "present_topic_option", "confirm_topic_selection", "select_topic"]

/-! ## Event Dispatcher transcript handling (`handleDataChannelMessage`,
lines 450-530) -/

/-- One content part of a conversation item (`data.item.content[i]`);
any field may be absent. -/
structure ContentPart where
  type : Option String
  text : Option String
  transcript : Option String
deriving DecidableEq, Repr

/-- A finalized conversation item (`data.item`); `content` is `none` when
the field is absent (`data.item?.content` falsy). -/
structure ConvItem where
  role : Option String
  content : Option (List ContentPart)
deriving DecidableEq, Repr

/-- The `response.output_audio_transcript.delta` handler body
(lines 477-483): coalesce into the trailing entry when its role is
`'assistant'`, otherwise open a new assistant entry. -/
def applyDelta (tr : List TranscriptEntry) (delta : String) (now : Nat) :
    List TranscriptEntry :=
  match tr.getLast? with
  | some last =>
      if last.role == "assistant" then
        tr.dropLast ++ [{ last with text := last.text ++ delta }]
      else
        tr ++ [{ role := "assistant", text := delta, timestamp := now }]
  | none => tr ++ [{ role := "assistant", text := delta, timestamp := now }]

/-- The predicate of `content.find(...)` on line 491:
`c.type === 'input_text' || c.transcript`. -/
def contentPartMatches (c : ContentPart) : Bool :=
  c.type == some "input_text" || jsTruthy c.transcript

/-- The text extracted from a finalized user item by lines 490-493, or
`none` when the guards reject it: requires `item.role === 'user'`, a
present `content` field, and a matching content part; the text itself is
`textContent.text || textContent.transcript || ''`. -/
def extractUserText (item : Option ConvItem) : Option String :=
  match item with
  | none => none
  | some it =>
      if it.role == some "user" && it.content.isSome then
        match (it.content.getD []).find? contentPartMatches with
        | some c => some (jsOrDefault (jsOrOpt c.text c.transcript) "")
        | none => none
      else none

/-- The `conversation.item.added` / `conversation.item.done` handler body
(lines 489-502): append one user entry with the trimmed text when it is
non-empty. -/
def applyUserItem (tr : List TranscriptEntry) (item : Option ConvItem)
    (now : Nat) : List TranscriptEntry :=
  match extractUserText item with
  | some text =>
      if jsTrim text ≠ "" then
        tr ++ [{ role := "user", text := jsTrim text, timestamp := now }]
      else tr
  | none => tr

/-- The inbound event variants of the `switch (data.type)` relevant to the
transcript accumulator. -/
inductive DCEvent
  | transcriptDelta (delta : Option String)
  | conversationItemDone (item : Option ConvItem)
  | responseDone (output : List FunctionCall)
  | speechStarted
  | speechStopped
  | unknown

/-- How one data-channel event transforms the transcript (lines 474-503):
a delta is processed only when `data.delta` is truthy; finalized items go
through `applyUserItem`; no other event touches the transcript. -/
def transcriptStep (tr : List TranscriptEntry) (e : DCEvent) (now : Nat) :
    List TranscriptEntry :=
  match e with
  | DCEvent.transcriptDelta d =>
      match d with
      | some s => if s ≠ "" then applyDelta tr s now else tr
      | none => tr
  | DCEvent.conversationItemDone item => applyUserItem tr item now
  | _ => tr

/-! ## Timer Subsystem (`startTimer` lines 251-259, pause/resume lines
677-829, auto-end effect lines 904-909, `endSession` lines 857-888) -/

/-- The timer-relevant live state: `startTimeRef`, the `elapsedSeconds`
state, the pause flag/status, whether the data channel is open (pause and
resume both bail out when it is not, lines 678-681 and 778-781) and whether
the one-second interval is installed (`stopTimer` clears it during
cleanup). -/
structure TimerState where
  startTime : Nat
  elapsedSeconds : Nat
  isPaused : Bool
  status : SessionStatus
  channelOpen : Bool
  timerActive : Bool
  endCount : Nat
deriving DecidableEq, Repr

/-- The timer state right after `startSession` succeeds at wall-clock time
`t0` (ms): `startTimer` runs with the captured `elapsedSeconds = 0`, so
`startTimeRef.current = t0 - 0`. -/
def initTimer (t0 : Nat) : TimerState where
  startTime := t0
  elapsedSeconds := 0
  isPaused := false
  status := SessionStatus.connected
  channelOpen := true
  timerActive := true
  endCount := 0

/-- The auto-end effect (lines 904-909): whenever `elapsedSeconds` or
`status` changed, if `elapsedSeconds >= 35 * 60 && status === 'connected'`
then `endSession` runs — which tears everything down (`cleanup` closes the
channel and clears both intervals) and resets `status` to `idle` and
`elapsedSeconds` to `0`.  The boolean reports whether it fired. -/
def autoEndCheck (s : TimerState) : TimerState × Bool :=
  if s.elapsedSeconds ≥ 35 * 60 && s.status == SessionStatus.connected then
    ({ s with
        status := SessionStatus.idle
        elapsedSeconds := 0
        channelOpen := false
        timerActive := false
        endCount := s.endCount + 1 }, true)
  else (s, false)

/-- The wall-clock events that drive the timer subsystem.  Each carries the
`Date.now()` (ms) at which it occurs; `pause`/`resume` do not read the
clock but still happen at some instant, which chronology constraints refer
to. -/
inductive TimerEvent
  | tick (now : Nat)
  | pause (now : Nat)
  | resume (now : Nat)
deriving DecidableEq, Repr

/-- The instant at which a timer event occurs. -/
def evTime : TimerEvent → Nat
  | TimerEvent.tick now => now
  | TimerEvent.pause now => now
  | TimerEvent.resume now => now

/-- One timer-subsystem step, followed by the auto-end effect (which reruns
on every `elapsedSeconds`/`status` change):

* `tick now` — the one-second interval body (lines 253-258): only when the
  interval is installed and `isPausedRef.current` is false, set
  `elapsedSeconds := Math.floor((now - startTimeRef.current) / 1000)`.
  `startTimeRef` is written nowhere else after session start.
* `pause` — `pauseSession` (lines 677-716): requires the channel open; sets
  the pause flag and `status = 'paused'`.
* `resume` — `resumeSession` (lines 777-829): requires the channel open;
  clears the pause flag and sets `status = 'connected'`.  It does **not**
  touch `startTimeRef`. -/
def timerStep (s : TimerState) : TimerEvent → TimerState × Bool
  | TimerEvent.tick now =>
      if s.timerActive && !s.isPaused then
        autoEndCheck { s with elapsedSeconds := (now - s.startTime) / 1000 }
      else (s, false)
  | TimerEvent.pause _ =>
      if s.channelOpen then
        autoEndCheck { s with isPaused := true, status := SessionStatus.paused }
      else (s, false)
  | TimerEvent.resume _ =>
      if s.channelOpen then
        autoEndCheck { s with isPaused := false, status := SessionStatus.connected }
      else (s, false)

/-- Run a sequence of timer events. -/
def runTimer (s : TimerState) (evs : List TimerEvent) : TimerState :=
  evs.foldl (fun s e => (timerStep s e).1) s

/-- Chronology of a timer-event trace: event times are at least the given
lower bound and non-decreasing. -/
def Chrono : Nat → List TimerEvent → Prop
  | _, [] => True
  | b, e :: tr => b ≤ evTime e ∧ Chrono (evTime e) tr

instance : ∀ b tr, Decidable (Chrono b tr) := fun b tr => by
  induction tr generalizing b with
  | nil => exact isTrue trivial
  | cons e tr ih => exact @instDecidableAnd _ _ _ (ih (evTime e))

/-! ## Termination & Handoff (`endSession`, lines 857-888; `cleanup`,
lines 832-854) -/

/-- Transport resources owned by the connector: the data channel, the local
media tracks, the peer connection, the audio element, plus the two
intervals cleared by `stopTimer`. -/
structure ConnResources where
  dataChannelOpen : Bool
  localStreamActive : Bool
  peerConnectionOpen : Bool
  audioElementAttached : Bool
  timerIntervalActive : Bool
  timeUpdateIntervalActive : Bool
deriving DecidableEq, Repr

/-- The function `cleanup` (lines 832-854): closes the channel, stops the tracks, closes
the peer connection, detaches the audio element and clears both intervals —
unconditionally and idempotently. -/
def cleanup (_ : ConnResources) : ConnResources where
  dataChannelOpen := false
  localStreamActive := false
  peerConnectionOpen := false
  audioElementAttached := false
  timerIntervalActive := false
  timeUpdateIntervalActive := false

/-- The JSON body POSTed to `/api/session-end` (lines 869-878).  Note the
fields are exactly these eight: the selected topic is not among them. -/
structure SessionArtifact where
  sessionId : String
  transcript : List TranscriptEntry
  skillObservations : List SkillObservation
  openLoops : List SessionOpenLoop
  lessonPlanMods : List LessonPlanModification
  misconceptions : List SessionMisconception
  duration : Nat
  phase : Option String
deriving DecidableEq, Repr

/-- Outcome of the `fetch('/api/session-end', ...)` call. -/
inductive SubmitOutcome
  | ok
  | networkError
deriving DecidableEq, Repr

/-- The artifact `endSession` would submit from state `st`, when a
`sessionId` was assigned. -/
def mkArtifact (st : SessionState) (sid : String) : SessionArtifact where
  sessionId := sid
  transcript := st.transcript
  skillObservations := st.skillObservations
  openLoops := st.openLoops
  lessonPlanMods := st.lessonPlanMods
  misconceptions := st.misconceptions
  duration := st.elapsedSeconds
  phase := st.currentPhase

/-- Result of `endSession`: the final state, the torn-down resources, the
submission (if any), the sequence of `status` values it wrote, and console
error logs. -/
structure EndResult where
  finalState : SessionState
  resources : ConnResources
  submission : Option SessionArtifact
  statusTrace : List SessionStatus
  logs : List String

/-- The function `endSession` (lines 857-888): set `status = 'ending'`; run `cleanup`
unconditionally; if a `sessionId` was assigned, POST the artifact (a
network failure is caught and only logged); finally set `status = 'idle'`,
reset `elapsedSeconds` to `0` and clear the `sessionId`.  The accumulators
themselves are not cleared here (that happens at the next session start). -/
def endSession (st : SessionState) (conn : ConnResources)
    (outcome : SubmitOutcome) : EndResult where
  finalState := { st with
    status := SessionStatus.idle
    elapsedSeconds := 0
    sessionId := none }
  resources := cleanup conn
  submission := st.sessionId.map (fun sid => mkArtifact st sid)
  statusTrace := [SessionStatus.ending, SessionStatus.idle]
  logs :=
    if st.sessionId.isSome && outcome == SubmitOutcome.networkError then
      ["Error saving session:"]
    else []

/-! ## Time-awareness broadcast (`sendTimeUpdate` lines 274-294, interval
installed at lines 663-666) -/

/-- The instruction text built by `sendTimeUpdate` from an elapsed-seconds
value: `remaining = Math.max(0, 35 - Math.floor(elapsedSeconds / 60))`,
with a wrap-up line appended when `remaining <= 5` and a final-minutes line
appended when `remaining <= 3`. -/
def timeInstruction (elapsedSeconds : Nat) : String :=
  let remaining := 35 - elapsedSeconds / 60
  let base := "[TIME UPDATE: " ++ toString remaining ++ " minutes remaining]"
  let base := if remaining ≤ 5 then
    base ++ "\n⚠️ BEGIN WRAP-UP: Move to reflection phase." else base
  if remaining ≤ 3 then
    base ++ "\n⚠️ FINAL MINUTES: Complete reflection, close warmly." else base

/-- The callback `sendTimeUpdate` (lines 274-294): bail out when the channel is not open
or when `isPausedRef.current` is set, otherwise send one `session.update`
frame carrying the time instruction computed from the `elapsedSeconds`
value the callback closed over. -/
def sendTimeUpdate (capturedElapsedSeconds : Nat) (channelOpen : Bool)
    (isPaused : Bool) : Option OutMessage :=
  if !channelOpen then none
  else if isPaused then none
  else some (OutMessage.sessionUpdate (timeInstruction capturedElapsedSeconds))

/-- The five-minute broadcast interval installed by `startSession`
(lines 663-666).  The interval closure holds the `sendTimeUpdate` value of
the render in which `startSession` ran; that `useCallback` value closed
over the `elapsedSeconds` React state of that same render, so every firing
of the interval reads this captured value, not the live one (only the pause
flag and the channel are read through refs). -/
structure TimeBroadcast where
  capturedElapsedSeconds : Nat
  intervalMs : Nat
deriving DecidableEq, Repr

/-- Install the broadcast interval at session start: period 5 minutes,
capturing the `elapsedSeconds` of the starting render. -/
def installTimeBroadcast (elapsedAtStart : Nat) : TimeBroadcast where
  capturedElapsedSeconds := elapsedAtStart
  intervalMs := 5 * 60 * 1000

/-- One firing of the installed broadcast interval.  The current
`elapsedSeconds` state is passed in to make explicit that the output does
not depend on it. -/
def broadcastFire (b : TimeBroadcast) (currentElapsedSeconds : Nat)
    (channelOpen : Bool) (isPaused : Bool) : Option OutMessage :=
  let _ := currentElapsedSeconds
  sendTimeUpdate b.capturedElapsedSeconds channelOpen isPaused

/-! ## Helper lemmas -/

/-- Comparing a (possibly `NaN`) number against a definite number with JS
`===` coincides with `Option` equality. -/
theorem jsNumEq_some (x : Option Nat) (n : Nat) :
    jsNumEq x (some n) = (x == some n) := by
  cases x <;> simp [jsNumEq]

/-! ## Claims about the Tool-Call Bridge -/

/-- Theorem for claim C3: for every recognized tool call whose argument
payload parses, dispatched while the data channel is open, the bridge sends
exactly the two frames: one `function_call_output` acknowledgment whose
`call_id` equals the originating call's `call_id` with payload
`{ success: true }`, followed by one `response.create` continue request. -/
theorem C3_ack_and_continue (st : SessionState) (fc : FunctionCall)
    (args : ArgsMap) (now : Nat)
    (_hname : fc.name ∈ recognizedNames) (hargs : fc.arguments = some args) :
    callMessages st fc true now =
      [OutMessage.functionCallOutput fc.call_id true,
       OutMessage.responseCreate] := by
  simp [callMessages, handleFunctionCall, hargs]

/-- A concrete recognized tool call used to witness C3. -/
def demoTransitionCall : FunctionCall where
  name := "transition_phase"
  call_id := "call_42"
  arguments := some [("phase", "diagnostic")]

/-- Witness for C3 at a concrete `transition_phase` call. -/
theorem C3_ack_and_continue_witness :
    demoTransitionCall.name ∈ recognizedNames ∧
    callMessages initialSessionState demoTransitionCall true 0 =
      [OutMessage.functionCallOutput "call_42" true,
       OutMessage.responseCreate] :=
  ⟨by decide,
   C3_ack_and_continue initialSessionState demoTransitionCall
     [("phase", "diagnostic")] 0 (by decide) rfl⟩

/-- Formalization of claim C4 as stated: for every recognized tool call,
even one whose argument payload is malformed (unparseable arguments),
dispatch still sends a best-effort acknowledgment — i.e. the outbound frame
list is never empty. -/
def claimC4Spec : Prop :=
  ∀ (st : SessionState) (fc : FunctionCall) (now : Nat),
    fc.name ∈ recognizedNames → fc.arguments = none →
    callMessages st fc true now ≠ []

/-- A recognized tool call whose `arguments` string does not parse as JSON. -/
def badArgsCall : FunctionCall where
  name := "transition_phase"
  call_id := "call_7"
  arguments := none

/-- Counterexample for claim C4: a recognized call with an unparseable
argument payload makes `JSON.parse(functionCall.arguments)` (line 335)
throw before the switch; the exception is caught by the dispatcher's
catch-all (line 527) and no acknowledgment frame is ever sent. -/
theorem C4_counterexample : ¬ claimC4Spec := by
  intro h
  exact h initialSessionState badArgsCall 0 (by decide) rfl rfl

/-- Theorem for claim C4 as amended: when the argument payload parses as
JSON, dispatch always sends exactly one default success acknowledgment plus
one continue request, whatever fields are missing from the payload (field
reads degrade to `undefined`-valued record fields); but when the payload is
unparseable, the parse throws before any mutation or send, the dispatcher
catch-all swallows it, and neither a mutation nor an acknowledgment
happens. -/
theorem C4_parse_gates_ack (st : SessionState) (fc : FunctionCall) (now : Nat) :
    (∀ args, fc.arguments = some args →
      callMessages st fc true now =
        [OutMessage.functionCallOutput fc.call_id true,
         OutMessage.responseCreate]) ∧
    (fc.arguments = none →
      callMessages st fc true now = [] ∧ callState st fc true now = st) := by
  constructor
  · intro args hargs
    simp [callMessages, handleFunctionCall, hargs]
  · intro hargs
    simp [callMessages, callState, handleFunctionCall, hargs]

/-- A tool call whose payload parses but is missing every required field. -/
def missingFieldsCall : FunctionCall where
  name := "log_skill_observation"
  call_id := "call_9"
  arguments := some []

/-- Witness for the amended C4 at a parsed-but-empty payload and at an
unparseable payload. -/
theorem C4_parse_gates_ack_witness :
    (missingFieldsCall.arguments = some [] ∧
      callMessages initialSessionState missingFieldsCall true 0 =
        [OutMessage.functionCallOutput "call_9" true,
         OutMessage.responseCreate]) ∧
    (badArgsCall.arguments = none ∧
      callMessages initialSessionState badArgsCall true 0 = []) :=
  ⟨⟨rfl, (C4_parse_gates_ack initialSessionState missingFieldsCall 0).1 [] rfl⟩,
   ⟨rfl, ((C4_parse_gates_ack initialSessionState badArgsCall 0).2 rfl).1⟩⟩

/-- Theorem for claim C5: whatever the prior selection flags, processing
`confirm_topic_selection` whose `selected_option` parses to `n`, on a
presented-topic set containing exactly one entry keyed `n`, leaves exactly
one entry with `isSelected = true` — the one keyed `n` — and every other
entry with `isSelected = false`; in particular at most one entry is
selected afterwards. -/
theorem C5_exactly_one_selected (st : SessionState) (args : ArgsMap)
    (n : Nat) (now : Nat)
    (hparse : parseIntJS (getField args "selected_option") = some n)
    (hkey : st.presentedTopics.countP
      (fun t => t.optionNumber == some n) = 1) :
    ((applyMutation st "confirm_topic_selection" args now).1.presentedTopics.countP
        (fun t => t.isSelected) = 1) ∧
    (∀ t ∈ (applyMutation st "confirm_topic_selection" args now).1.presentedTopics,
        t.isSelected = (t.optionNumber == some n)) := by
  constructor
  · simp only [applyMutation, hparse, List.countP_map]
    rw [← hkey]
    apply List.countP_congr
    intro t _
    simp [Function.comp, jsNumEq_some]
  · intro t ht
    simp only [applyMutation, hparse, List.mem_map] at ht
    obtain ⟨u, _, rfl⟩ := ht
    simp [jsNumEq_some]

/-- A two-entry presented-topic set with a stale selection on entry 2. -/
def demoTopics : List PresentedTopic :=
  [{ optionNumber := some 1, title := some "Dreams", description := some "d1",
     isSelected := false, timestamp := 0 },
   { optionNumber := some 2, title := some "Memory", description := some "d2",
     isSelected := true, timestamp := 1 }]

/-- A session state holding `demoTopics`. -/
def demoTopicsState : SessionState :=
  { initialSessionState with presentedTopics := demoTopics }

/-- Witness for C5: confirming option 1 over `demoTopics` selects entry 1
and deselects the previously selected entry 2. -/
theorem C5_exactly_one_selected_witness :
    (demoTopicsState.presentedTopics.countP
      (fun t => t.optionNumber == some 1) = 1) ∧
    ((applyMutation demoTopicsState "confirm_topic_selection"
        [("selected_option", "1")] 5).1.presentedTopics.countP
        (fun t => t.isSelected) = 1) :=
  ⟨by decide,
   (C5_exactly_one_selected demoTopicsState [("selected_option", "1")] 1 5
      (by decide) (by decide)).1⟩

/-- Theorem for claim C10: processing `confirm_topic_selection` whose
`selected_option` parses to `n` when no presented entry is keyed `n`
deselects everything: every entry ends with `isSelected = false`. -/
theorem C10_no_match_deselects_all (st : SessionState) (args : ArgsMap)
    (n : Nat) (now : Nat)
    (hparse : parseIntJS (getField args "selected_option") = some n)
    (hnone : ∀ t ∈ st.presentedTopics, t.optionNumber ≠ some n) :
    ∀ t ∈ (applyMutation st "confirm_topic_selection" args now).1.presentedTopics,
      t.isSelected = false := by
  intro t ht
  simp only [applyMutation, hparse, List.mem_map] at ht
  obtain ⟨u, hu, rfl⟩ := ht
  simp [jsNumEq_some, hnone u hu]

/-- The parsed `option_number` a call carries, as the bridge would compute
it (`none` when the payload is unparseable or the field is not a number). -/
def callNum (c : FunctionCall) : Option Nat :=
  c.arguments.bind fun args => parseIntJS (getField args "option_number")

/-- The option-number keys of the presented-topic set, in order. -/
def topicKeys (st : SessionState) : List (Option Nat) :=
  st.presentedTopics.map PresentedTopic.optionNumber

/-- A well-formed `present_topic_option` call: a parseable payload whose
`option_number` parses to some `n ∈ {1,2,3}`. -/
def PresentCallOk (c : FunctionCall) : Prop :=
  c.name = "present_topic_option" ∧
  ∃ args, c.arguments = some args ∧
  ∃ n, parseIntJS (getField args "option_number") = some n ∧
       (n = 1 ∨ n = 2 ∨ n = 3)

/-- Spelling out of the `any` test of the upsert guard (line 398): the set
already holds an entry keyed `n` iff `some n` is among the keys. -/
theorem any_key_eq (l : List PresentedTopic) (n : Nat) :
    (l.any fun t => t.optionNumber == some n) = true ↔
      some n ∈ l.map PresentedTopic.optionNumber := by
  simp only [List.any_eq_true, List.mem_map, beq_iff_eq]

/-- Effect of one `present_topic_option` dispatch on the presented-topic
set: skip when an entry keyed `n` exists, otherwise append a fresh
unselected entry keyed `n` (lines 396-407). -/
theorem present_topics_step (st : SessionState) (args : ArgsMap)
    (n now : Nat) (hp : parseIntJS (getField args "option_number") = some n) :
    (applyMutation st "present_topic_option" args now).1.presentedTopics =
      if st.presentedTopics.any (fun t => t.optionNumber == some n) then
        st.presentedTopics
      else
        st.presentedTopics ++
          [{ optionNumber := some n
             title := getField args "title"
             description := getField args "description"
             isSelected := false
             timestamp := now }] := by
  simp only [applyMutation, hp]
  split <;> simp only [jsNumEq_some]

/-- Effect of one `present_topic_option` dispatch on the activity tracker:
`offering_topics`, overridden to `awaiting_selection` when the presented
number is 3 (lines 395 and 409-411). -/
theorem present_activity_step (st : SessionState) (args : ArgsMap)
    (n now : Nat) (hp : parseIntJS (getField args "option_number") = some n) :
    (applyMutation st "present_topic_option" args now).1.currentActivity =
      if n = 3 then ActivityState.awaiting_selection
      else ActivityState.offering_topics := by
  simp only [applyMutation, hp]
  by_cases h3 : n = 3
  · simp [jsNumEq, h3]
  · simp [jsNumEq, h3]

/-- Invariant of folding well-formed `present_topic_option` calls: key
nodup-ness is preserved, and the final key set is the initial one extended
by exactly the presented numbers. -/
theorem runCalls_present_keys (calls : List FunctionCall) :
    ∀ (st : SessionState) (now : Nat), (∀ c ∈ calls, PresentCallOk c) →
    (topicKeys st).Nodup →
    (topicKeys (runCalls st calls true now)).Nodup ∧
    (∀ m : Nat, some m ∈ topicKeys (runCalls st calls true now) ↔
        some m ∈ topicKeys st ∨ ∃ c ∈ calls, callNum c = some m) ∧
    (∀ k ∈ topicKeys (runCalls st calls true now),
        k ∈ topicKeys st ∨ ∃ c ∈ calls, callNum c = k) := by
  induction calls with
  | nil =>
      intro st now _ hnd
      simp only [runCalls, List.foldl_nil]
      exact ⟨hnd, fun m => by simp, fun k hk => Or.inl hk⟩
  | cons c cs ih =>
      intro st now hok hnd
      obtain ⟨hname, args, hargs, n, hp, hn3⟩ := hok c (by simp)
      have hcn : callNum c = some n := by simp [callNum, hargs, hp]
      have hrun : runCalls st (c :: cs) true now =
          runCalls (callState st c true now) cs true now := by
        simp [runCalls]
      have hstate : callState st c true now =
          (applyMutation st "present_topic_option" args now).1 := by
        simp [callState, handleFunctionCall, hargs, hname]
      have htopics := present_topics_step st args n now hp
      by_cases hmem : st.presentedTopics.any (fun t => t.optionNumber == some n)
      · -- duplicate number: the set (hence its keys) is unchanged
        have hkeys : topicKeys (callState st c true now) = topicKeys st := by
          rw [hstate]; unfold topicKeys; rw [htopics, if_pos hmem]
        have hninkeys : some n ∈ topicKeys st := (any_key_eq _ _).mp hmem
        obtain ⟨ih1, ih2, ih3⟩ :=
          ih (callState st c true now) now (fun c' hc' => hok c' (by simp [hc']))
            (hkeys ▸ hnd)
        rw [hrun]
        refine ⟨ih1, ?_, ?_⟩
        · intro m
          rw [ih2 m, hkeys]
          constructor
          · rintro (h | ⟨c', hc', hm⟩)
            · exact Or.inl h
            · exact Or.inr ⟨c', List.mem_cons_of_mem _ hc', hm⟩
          · rintro (h | ⟨c', hc', hm⟩)
            · exact Or.inl h
            · rcases List.mem_cons.mp hc' with rfl | hc'
              · rw [hcn] at hm
                obtain rfl : n = m := Option.some_inj.mp hm
                exact Or.inl hninkeys
              · exact Or.inr ⟨c', hc', hm⟩
        · intro k hk
          rcases ih3 k hk with h | ⟨c', hc', hm⟩
          · exact Or.inl (hkeys ▸ h)
          · exact Or.inr ⟨c', List.mem_cons_of_mem _ hc', hm⟩
      · -- fresh number: one entry keyed `some n` is appended
        have hkeys : topicKeys (callState st c true now) =
            topicKeys st ++ [some n] := by
          rw [hstate]; unfold topicKeys; rw [htopics, if_neg hmem]
          simp
        have hnout : some n ∉ topicKeys st := fun h =>
          hmem ((any_key_eq _ _).mpr h)
        have hnd' : (topicKeys (callState st c true now)).Nodup := by
          rw [hkeys, List.nodup_append]
          exact ⟨hnd, List.nodup_singleton _,
            by simpa [List.disjoint_singleton] using hnout⟩
        obtain ⟨ih1, ih2, ih3⟩ :=
          ih (callState st c true now) now (fun c' hc' => hok c' (by simp [hc'])) hnd'
        rw [hrun]
        refine ⟨ih1, ?_, ?_⟩
        · intro m
          rw [ih2 m, hkeys]
          simp only [List.mem_append, List.mem_singleton, Option.some_inj]
          constructor
          · rintro ((h | rfl) | ⟨c', hc', hm⟩)
            · exact Or.inl h
            · exact Or.inr ⟨c, by simp, hcn⟩
            · exact Or.inr ⟨c', List.mem_cons_of_mem _ hc', hm⟩
          · rintro (h | ⟨c', hc', hm⟩)
            · exact Or.inl (Or.inl h)
            · rcases List.mem_cons.mp hc' with rfl | hc'
              · rw [hcn] at hm
                exact Or.inl (Or.inr (Option.some_inj.mp hm).symm)
              · exact Or.inr ⟨c', hc', hm⟩
        · intro k hk
          rcases ih3 k hk with h | ⟨c', hc', hm⟩
          · rw [hkeys] at h
            rcases List.mem_append.mp h with h | h
            · exact Or.inl h
            · rcases List.mem_singleton.mp h with rfl
              exact Or.inr ⟨c, by simp, hcn⟩
          · exact Or.inr ⟨c', List.mem_cons_of_mem _ hc', hm⟩

/-- Theorem for claim C6: folding any sequence of well-formed
`present_topic_option` calls with numbers drawn from {1,2,3} — any order,
repeats included — over an empty presented-topic set yields exactly one
entry per distinct presented number (keys are duplicate-free and a number
is a key iff some call presented it) and never more than 3 entries; and
each single dispatch sets the activity to `offering_topics`, overridden to
`awaiting_selection` when the presented number is 3. -/
theorem C6_present_fold (st : SessionState) (calls : List FunctionCall)
    (now : Nat) (hok : ∀ c ∈ calls, PresentCallOk c)
    (hstart : st.presentedTopics = []) :
    (topicKeys (runCalls st calls true now)).Nodup ∧
    (∀ m : Nat, some m ∈ topicKeys (runCalls st calls true now) ↔
        ∃ c ∈ calls, callNum c = some m) ∧
    (runCalls st calls true now).presentedTopics.length ≤ 3 ∧
    (∀ (st' : SessionState) (args : ArgsMap) (n now' : Nat),
        parseIntJS (getField args "option_number") = some n →
        (applyMutation st' "present_topic_option" args now').1.currentActivity =
          if n = 3 then ActivityState.awaiting_selection
          else ActivityState.offering_topics) := by
  have hnd : (topicKeys st).Nodup := by simp [topicKeys, hstart]
  obtain ⟨h1, h2, h3⟩ := runCalls_present_keys calls st now hok hnd
  refine ⟨h1, ?_, ?_, fun st' args n now' hp => present_activity_step st' args n now' hp⟩
  · intro m
    rw [h2 m]
    simp [topicKeys, hstart]
  · have hsub : topicKeys (runCalls st calls true now) ⊆
        [some 1, some 2, some 3] := by
      intro k hk
      rcases h3 k hk with h | ⟨c, hc, hck⟩
      · simp [topicKeys, hstart] at h
      · obtain ⟨_, args, hargs, n, hp, hn⟩ := hok c hc
        have hkn : k = some n := by
          rw [← hck]; simp [callNum, hargs, hp]
        subst hkn
        rcases hn with rfl | rfl | rfl <;> simp
    have hlen := (List.subperm_of_subset h1 hsub).length_le
    simpa [topicKeys] using hlen

/-- A concrete call presenting option `n`. -/
def presentCall (n : Nat) : FunctionCall where
  name := "present_topic_option"
  call_id := "pc"
  arguments := some [("option_number", toString n),
                     ("title", "T"), ("description", "D")]

/-- A concrete sequence presenting 1, then 3, then 3 again, then 2. -/
def demoPresentCalls : List FunctionCall :=
  [presentCall 1, presentCall 3, presentCall 3, presentCall 2]

/-- Witness for C6 at the concrete sequence 1, 3, 3, 2: the final set has
at most 3 entries and duplicate-free keys. -/
theorem C6_present_fold_witness :
    (topicKeys (runCalls initialSessionState demoPresentCalls true 0)).Nodup ∧
    (runCalls initialSessionState demoPresentCalls true 0).presentedTopics.length ≤ 3 := by
  have hok : ∀ c ∈ demoPresentCalls, PresentCallOk c := by
    intro c hc
    simp only [demoPresentCalls, List.mem_cons, List.not_mem_nil, or_false] at hc
    rcases hc with rfl | rfl | rfl | rfl
    · exact ⟨rfl, _, rfl, 1, by decide, by decide⟩
    · exact ⟨rfl, _, rfl, 3, by decide, by decide⟩
    · exact ⟨rfl, _, rfl, 3, by decide, by decide⟩
    · exact ⟨rfl, _, rfl, 2, by decide, by decide⟩
  obtain ⟨h1, _, h3, _⟩ :=
    C6_present_fold initialSessionState demoPresentCalls 0 hok rfl
  exact ⟨h1, h3⟩

/-- Witness for C10: confirming option 3 over `demoTopics` (which has only
entries 1 and 2) ends with both entries deselected. -/
theorem C10_no_match_deselects_all_witness :
    (∀ t ∈ demoTopicsState.presentedTopics, t.optionNumber ≠ some 3) ∧
    ∀ t ∈ (applyMutation demoTopicsState "confirm_topic_selection"
        [("selected_option", "3")] 5).1.presentedTopics,
      t.isSelected = false :=
  ⟨by decide,
   C10_no_match_deselects_all demoTopicsState [("selected_option", "3")] 3 5
     (by decide) (by decide)⟩

/-! ## Claims about the Event Dispatcher transcript handling -/

/-- Instrumented dispatcher state for stating claim C7: besides the
transcript the code maintains, it tracks (specification-side) whether a
terminating event (`response.done`) has occurred since the trailing
transcript entry was opened. -/
structure InstrState where
  transcript : List TranscriptEntry
  termSinceOpen : Bool
deriving DecidableEq, Repr

/-- One instrumented dispatcher step: the transcript evolves exactly as
`transcriptStep` (the code), while `termSinceOpen` is set by a
`response.done` and cleared whenever a new entry is opened (observable as a
transcript-length increase). -/
def instrStep (s : InstrState) (e : DCEvent) (now : Nat) : InstrState :=
  match e with
  | DCEvent.responseDone _ => { s with termSinceOpen := true }
  | _ =>
      let tr := transcriptStep s.transcript e now
      { transcript := tr
        termSinceOpen :=
          if tr.length = s.transcript.length then s.termSinceOpen else false }

/-- Run the instrumented dispatcher over timestamped events from an empty
transcript. -/
def runInstr (evs : List (DCEvent × Nat)) : InstrState :=
  evs.foldl (fun s p => instrStep s p.1 p.2) ⟨[], false⟩

/-- Formalization of claim C7 as stated: after any event history, a
non-empty assistant-transcript delta is appended to the last transcript
entry (observable as an unchanged transcript length) if and only if that
entry's role is assistant AND no terminating event has occurred since that
entry was opened; and every finalized user item (with extracted non-empty
text) opens a new transcript entry. -/
def claimC7Spec : Prop :=
  ∀ (evs : List (DCEvent × Nat)) (d : String) (now : Nat), d ≠ "" →
    (((applyDelta (runInstr evs).transcript d now).length =
        (runInstr evs).transcript.length) ↔
      (((runInstr evs).transcript.getLast?.map TranscriptEntry.role =
          some "assistant") ∧ (runInstr evs).termSinceOpen = false)) ∧
    (∀ (item : Option ConvItem) (t : String), extractUserText item = some t →
      jsTrim t ≠ "" →
      (applyUserItem (runInstr evs).transcript item now).length =
        (runInstr evs).transcript.length + 1)

/-- An event history in which an assistant entry is opened by a delta and a
terminating `response.done` then arrives. -/
def demoDeltaEvents : List (DCEvent × Nat) :=
  [(DCEvent.transcriptDelta (some "a"), 0), (DCEvent.responseDone [], 1)]

/-- Counterexample for claim C7: after `demoDeltaEvents` a terminating
event has occurred since the trailing assistant entry was opened, yet the
code (lines 477-483) still appends the next delta to that entry — its only
test is the trailing entry's role, so the "and no terminating event has
occurred since" half of the claimed iff is false. -/
theorem C7_counterexample : ¬ claimC7Spec := by
  intro h
  have h1 := (h demoDeltaEvents "b" 2 (by decide)).1
  have happend :
      (applyDelta (runInstr demoDeltaEvents).transcript "b" 2).length =
        (runInstr demoDeltaEvents).transcript.length := by decide
  have := (h1.mp happend).2
  have hterm : (runInstr demoDeltaEvents).termSinceOpen = true := by decide
  rw [hterm] at this
  exact absurd this (by decide)

/-- Theorem for claim C7 as amended: a non-empty assistant-transcript delta
is appended to the last transcript entry if and only if that entry's role
is assistant — intervening terminating events play no part; when the
trailing entry is an assistant entry the delta is concatenated onto its
text, otherwise a fresh assistant entry is opened; and every finalized user
item whose extracted text trims to something non-empty appends exactly one
new user entry carrying the trimmed text. -/
theorem C7_delta_coalescing (tr : List TranscriptEntry) (d : String)
    (now : Nat) :
    (((applyDelta tr d now).length = tr.length) ↔
        tr.getLast?.map TranscriptEntry.role = some "assistant") ∧
    (∀ last, tr.getLast? = some last → last.role = "assistant" →
        applyDelta tr d now =
          tr.dropLast ++ [{ last with text := last.text ++ d }]) ∧
    (tr.getLast?.map TranscriptEntry.role ≠ some "assistant" →
        applyDelta tr d now =
          tr ++ [{ role := "assistant", text := d, timestamp := now }]) ∧
    (∀ (item : Option ConvItem) (t : String), extractUserText item = some t →
        jsTrim t ≠ "" →
        applyUserItem tr item now =
          tr ++ [{ role := "user", text := jsTrim t, timestamp := now }]) := by
  refine ⟨?_, ?_, ?_, ?_⟩
  · induction tr using List.reverseRecOn with
    | nil => simp [applyDelta]
    | append_singleton xs x _ =>
        by_cases hx : x.role = "assistant" <;>
          simp [applyDelta, hx]
  · intro last hlast hrole
    induction tr using List.reverseRecOn with
    | nil => exact absurd hlast (by simp)
    | append_singleton xs x _ =>
        rw [List.getLast?_concat] at hlast
        obtain rfl : x = last := Option.some_inj.mp hlast
        simp [applyDelta, hrole]
  · intro hrole
    induction tr using List.reverseRecOn with
    | nil => simp [applyDelta]
    | append_singleton xs x _ =>
        rw [List.getLast?_concat] at hrole
        have hx : x.role ≠ "assistant" := fun hc => hrole (by simp [hc])
        simp [applyDelta, hx]
  · intro item t hextract htrim
    simp [applyUserItem, hextract, htrim]

/-- A concrete finalized user item with extractable text. -/
def demoUserItem : Option ConvItem :=
  some { role := some "user"
         content := some [{ type := some "input_text"
                            text := some " hi there "
                            transcript := none }] }

/-- Witness for the amended C7 at a concrete user item over a one-entry
transcript. -/
theorem C7_delta_coalescing_witness :
    extractUserText demoUserItem = some " hi there " ∧
    applyUserItem [{ role := "assistant", text := "a", timestamp := 0 }]
        demoUserItem 9 =
      [{ role := "assistant", text := "a", timestamp := 0 },
       { role := "user", text := "hi there", timestamp := 9 }] :=
  ⟨by decide,
   (C7_delta_coalescing [{ role := "assistant", text := "a", timestamp := 0 }]
      "x" 9).2.2.2 demoUserItem " hi there " (by decide) (by decide)⟩

/-! ## Claims about Termination & Handoff -/

/-- The selected presented topic, if any (the entry whose flag is set). -/
def selectedTopicOf (st : SessionState) : Option PresentedTopic :=
  st.presentedTopics.find? (fun t => t.isSelected)

/-- Formalization of the artifact clause of claim C8: the submitted
artifact includes "the selected topic if any", i.e. two states that produce
the same (non-absent) submission must agree on the selected topic. -/
def claimC8Spec : Prop :=
  ∀ (st1 st2 : SessionState) (conn : ConnResources) (o : SubmitOutcome),
    (endSession st1 conn o).submission = (endSession st2 conn o).submission →
    (endSession st1 conn o).submission ≠ none →
    selectedTopicOf st1 = selectedTopicOf st2

/-- The default (fully live) resource set. -/
def liveResources : ConnResources where
  dataChannelOpen := true
  localStreamActive := true
  peerConnectionOpen := true
  audioElementAttached := true
  timerIntervalActive := true
  timeUpdateIntervalActive := true

/-- A session state holding a selected topic and an assigned session id. -/
def endStateWithSelection : SessionState :=
  { initialSessionState with sessionId := some "sess-1",
                             presentedTopics := demoTopics }

/-- The same state with the presentation set cleared (no selected topic). -/
def endStateWithoutSelection : SessionState :=
  { initialSessionState with sessionId := some "sess-1",
                             presentedTopics := [] }

/-- Counterexample for the artifact clause of claim C8: the POST body
(lines 869-878) carries `sessionId`, the transcript, the four accumulator
logs, `duration` and `phase` — and nothing about the selected topic — so
two states that differ exactly in the selected topic submit identical
artifacts. -/
theorem C8_counterexample : ¬ claimC8Spec := by
  intro h
  have heq := h endStateWithSelection endStateWithoutSelection
    liveResources SubmitOutcome.ok rfl (by decide)
  exact absurd heq (by decide)

/-- Theorem for claim C8 as amended: `endSession` writes `status=ending`
then `idle`, tears down every transport resource unconditionally, resets
`elapsedSeconds` and the `sessionId`, submits exactly one artifact iff a
`sessionId` was assigned — the artifact carrying the full transcript, all
four accumulator logs, the elapsed duration and the final phase, but not
the selected topic — and a submission network failure changes nothing
observable besides an error log (it is swallowed; the state still resets
to idle). -/
theorem C8_end_session (st : SessionState) (conn : ConnResources)
    (o : SubmitOutcome) :
    (endSession st conn o).statusTrace =
      [SessionStatus.ending, SessionStatus.idle] ∧
    (endSession st conn o).resources = cleanup conn ∧
    ((endSession st conn o).resources.dataChannelOpen = false ∧
      (endSession st conn o).resources.localStreamActive = false ∧
      (endSession st conn o).resources.peerConnectionOpen = false ∧
      (endSession st conn o).resources.timerIntervalActive = false ∧
      (endSession st conn o).resources.timeUpdateIntervalActive = false) ∧
    (endSession st conn o).finalState.status = SessionStatus.idle ∧
    (endSession st conn o).finalState.elapsedSeconds = 0 ∧
    (endSession st conn o).finalState.sessionId = none ∧
    ((endSession st conn o).submission.isSome ↔ st.sessionId.isSome) ∧
    (∀ a, (endSession st conn o).submission = some a →
        st.sessionId = some a.sessionId ∧
        a.transcript = st.transcript ∧
        a.skillObservations = st.skillObservations ∧
        a.openLoops = st.openLoops ∧
        a.lessonPlanMods = st.lessonPlanMods ∧
        a.misconceptions = st.misconceptions ∧
        a.duration = st.elapsedSeconds ∧
        a.phase = st.currentPhase) ∧
    (endSession st conn SubmitOutcome.networkError).finalState =
      (endSession st conn SubmitOutcome.ok).finalState ∧
    (endSession st conn SubmitOutcome.networkError).submission =
      (endSession st conn SubmitOutcome.ok).submission := by
  refine ⟨rfl, rfl, ⟨rfl, rfl, rfl, rfl, rfl⟩, rfl, rfl, rfl, ?_, ?_, rfl, rfl⟩
  · rcases hsid : st.sessionId with _ | sid <;> simp [endSession, hsid]
  · intro a ha
    rcases hsid : st.sessionId with _ | sid
    · simp [endSession, hsid] at ha
    · simp only [endSession, hsid, Option.map_some'] at ha
      obtain rfl : mkArtifact st sid = a := Option.some_inj.mp ha
      exact ⟨rfl, rfl, rfl, rfl, rfl, rfl, rfl, rfl⟩

/-- Witness for the amended C8: ending `endStateWithSelection` submits an
artifact whose `duration` and `phase` come from the state. -/
theorem C8_end_session_witness :
    (endSession endStateWithSelection liveResources SubmitOutcome.ok).submission =
      some (mkArtifact endStateWithSelection "sess-1") ∧
    endStateWithSelection.sessionId =
      some (mkArtifact endStateWithSelection "sess-1").sessionId ∧
    (mkArtifact endStateWithSelection "sess-1").duration =
      endStateWithSelection.elapsedSeconds :=
  ⟨rfl,
   ((C8_end_session endStateWithSelection liveResources SubmitOutcome.ok).2.2.2.2.2.2.2.1
      (mkArtifact endStateWithSelection "sess-1") rfl).1,
   ((C8_end_session endStateWithSelection liveResources SubmitOutcome.ok).2.2.2.2.2.2.2.1
      (mkArtifact endStateWithSelection "sess-1") rfl).2.2.2.2.2.2.1⟩

/-! ## Claim about the time-awareness broadcast -/

/-- Theorem supporting the C9 code bug: the five-minute broadcast interval
holds the `sendTimeUpdate` closure of the starting render, which closed
over that render's `elapsedSeconds` (0 at session start) — only the pause
flag and the channel are read through refs.  Hence at any current elapsed
time (here 1920 s, i.e. 32 minutes in, when only 3 minutes remain) the
broadcast still reports 35 minutes remaining and never escalates, even
though the instruction text the code would build from the current elapsed
time carries both escalation lines; the broadcast output is constant in
the current elapsed time, the skip-while-paused behaviour does hold, and
the interval period is the fixed 5 minutes. -/
theorem C9_stale_broadcast :
    broadcastFire (installTimeBroadcast 0) 1920 true false =
      some (OutMessage.sessionUpdate "[TIME UPDATE: 35 minutes remaining]") ∧
    timeInstruction 1920 =
      "[TIME UPDATE: 3 minutes remaining]" ++
      "\n⚠️ BEGIN WRAP-UP: Move to reflection phase." ++
      "\n⚠️ FINAL MINUTES: Complete reflection, close warmly." ∧
    (∀ e : Nat, broadcastFire (installTimeBroadcast 0) e true false =
        broadcastFire (installTimeBroadcast 0) 0 true false) ∧
    (∀ captured current : Nat,
        broadcastFire (installTimeBroadcast captured) current true true = none) ∧
    (installTimeBroadcast 0).intervalMs = 5 * 60 * 1000 :=
  ⟨rfl, rfl, fun _ => rfl, fun _ _ => rfl, rfl⟩

/-! ## Claims about the Timer Subsystem -/

/-- Specification-side accumulator for claims C1 and C2: the wall-clock
milliseconds spent in the non-paused state along a trace ("time spent
paused excluded"), tracking the previous event time and the pause flag. -/
def specRunningMsAux : Nat → Bool → Nat → List TimerEvent → Nat
  | _, _, acc, [] => acc
  | last, paused, acc, e :: tr =>
      let t := evTime e
      let acc' := if paused then acc else acc + (t - last)
      match e with
      | TimerEvent.pause _ => specRunningMsAux t true acc' tr
      | TimerEvent.resume _ => specRunningMsAux t false acc' tr
      | TimerEvent.tick _ => specRunningMsAux t paused acc' tr

/-- Non-paused running milliseconds of a trace that starts (unpaused) at
wall-clock time `t0`. -/
def specRunningMs (t0 : Nat) (tr : List TimerEvent) : Nat :=
  specRunningMsAux t0 false 0 tr

/-- Whether a trace ends with a tick (so `elapsedSeconds` is up to date). -/
def endsWithTick (tr : List TimerEvent) : Bool :=
  match tr.getLast? with
  | some (TimerEvent.tick _) => true
  | _ => false

/-- Formalization of claim C1's quantitative content: because `startTime`
is (allegedly) adjusted at session start and at every resume, time spent
paused is excluded — after any chronological trace ending in a tick (and
with no auto-end), `elapsedSeconds` equals the non-paused running seconds. -/
def claimC1Spec : Prop :=
  ∀ (t0 : Nat) (tr : List TimerEvent), Chrono t0 tr →
    (runTimer (initTimer t0) tr).endCount = 0 →
    endsWithTick tr = true →
    (runTimer (initTimer t0) tr).elapsedSeconds = specRunningMs t0 tr / 1000

/-- A trace that runs 10 s, pauses for 20 s, resumes, and ticks. -/
def demoPauseTrace : List TimerEvent :=
  [TimerEvent.tick 10000, TimerEvent.pause 10000,
   TimerEvent.resume 30000, TimerEvent.tick 30000]

/-- Counterexample for claim C1: `resumeSession` (lines 777-829) never
touches `startTimeRef` — only `startTimer` at session start sets it — so
the first tick after a resume computes `(now - startTime)/1000`, which
includes the paused interval.  On `demoPauseTrace` the counter froze at 10
but the tick right after the resume reads 30, not 10: the count does not
continue from where it froze and the 20 paused seconds are counted. -/
theorem C1_counterexample : ¬ claimC1Spec := by
  intro h
  have := h 0 demoPauseTrace (by decide) (by decide) (by decide)
  exact absurd this (by decide)

/-- Formalization of claim C2's "pause time never counts toward the
ceiling": if auto-end ever fired along a chronological trace, at least the
ceiling's worth of non-paused running time must have elapsed. -/
def claimC2Spec : Prop :=
  ∀ (t0 : Nat) (tr : List TimerEvent), Chrono t0 tr →
    1 ≤ (runTimer (initTimer t0) tr).endCount →
    35 * 60 * 1000 ≤ specRunningMs t0 tr

/-- A trace that runs 2090 s, pauses for 20 s, resumes, and ticks: only
2090 non-paused seconds have elapsed, below the 2100 s ceiling. -/
def demoCeilingTrace : List TimerEvent :=
  [TimerEvent.tick 2090000, TimerEvent.pause 2090000,
   TimerEvent.resume 2110000, TimerEvent.tick 2110000]

/-- Counterexample for claim C2: on `demoCeilingTrace` the tick after the
resume computes elapsed = 2110 s ≥ 2100 s and auto-end fires, although
only 2090 s of non-paused running time have accumulated — the 20 paused
seconds did count toward the ceiling. -/
theorem C2_counterexample : ¬ claimC2Spec := by
  intro h
  have := h 0 demoCeilingTrace (by decide) (by decide)
  exact absurd this (by decide)

/-- Last event time of a trace, with `b` for the empty trace. -/
def chronoBound (b : Nat) (tr : List TimerEvent) : Nat :=
  tr.foldl (fun _ e => evTime e) b

/-- Splitting a chronological trace. -/
theorem chrono_append (pre : List TimerEvent) :
    ∀ (suf : List TimerEvent) (b : Nat), Chrono b (pre ++ suf) →
      Chrono b pre ∧ Chrono (chronoBound b pre) suf := by
  induction pre with
  | nil => intro suf b h; exact ⟨trivial, h⟩
  | cons e pre ih =>
      intro suf b h
      obtain ⟨hbe, h⟩ := h
      obtain ⟨h1, h2⟩ := ih suf (evTime e) h
      exact ⟨⟨hbe, h1⟩, h2⟩

/-- Running a split trace. -/
theorem runTimer_append (s : TimerState) (pre suf : List TimerEvent) :
    runTimer s (pre ++ suf) = runTimer (runTimer s pre) suf :=
  List.foldl_append ..

/-- The auto-end effect never decreases `endCount`. -/
theorem endCount_autoEnd_le (s : TimerState) :
    s.endCount ≤ (autoEndCheck s).1.endCount := by
  unfold autoEndCheck
  split <;> simp

/-- One timer step never decreases `endCount`. -/
theorem endCount_step_le (s : TimerState) (e : TimerEvent) :
    s.endCount ≤ (timerStep s e).1.endCount := by
  cases e <;> simp only [timerStep] <;> split
  · unfold autoEndCheck; split <;> simp
  · exact le_refl _
  · unfold autoEndCheck; split <;> simp
  · exact le_refl _
  · unfold autoEndCheck; split <;> simp
  · exact le_refl _

/-- A run never decreases `endCount`. -/
theorem endCount_run_le (tr : List TimerEvent) :
    ∀ s : TimerState, s.endCount ≤ (runTimer s tr).endCount := by
  induction tr with
  | nil => intro s; exact le_refl _
  | cons e tr ih =>
      intro s
      exact le_trans (endCount_step_le s e) (ih (timerStep s e).1)

/-- Characterization of a non-firing step: it is the identity, a tick that
recomputes `elapsedSeconds` from the unchanged `startTime`, or a
pause/resume flip — in every case `startTime` is untouched. -/
theorem step_no_fire (s : TimerState) (e : TimerEvent)
    (h : (timerStep s e).1.endCount = s.endCount) :
    (timerStep s e).1 = s ∨
    (∃ now, e = TimerEvent.tick now ∧
      (timerStep s e).1 = { s with elapsedSeconds := (now - s.startTime) / 1000 }) ∨
    (∃ now, e = TimerEvent.pause now ∧
      (timerStep s e).1 = { s with isPaused := true, status := SessionStatus.paused }) ∨
    (∃ now, e = TimerEvent.resume now ∧
      (timerStep s e).1 = { s with isPaused := false, status := SessionStatus.connected }) := by
  cases e with
  | tick now =>
      by_cases hg : s.timerActive && !s.isPaused
      · rw [timerStep, if_pos hg] at h ⊢
        unfold autoEndCheck at h ⊢
        split at h
        · simp at h
        · rename_i hcond
          rw [if_neg hcond]
          exact Or.inr (Or.inl ⟨now, rfl, rfl⟩)
      · rw [timerStep, if_neg hg]
        exact Or.inl rfl
  | pause now =>
      by_cases hg : s.channelOpen
      · rw [timerStep, if_pos hg] at h ⊢
        unfold autoEndCheck at h ⊢
        split at h
        · simp at h
        · rename_i hcond
          rw [if_neg hcond]
          exact Or.inr (Or.inr (Or.inl ⟨now, rfl, rfl⟩))
      · rw [timerStep, if_neg hg]
        exact Or.inl rfl
  | resume now =>
      by_cases hg : s.channelOpen
      · rw [timerStep, if_pos hg] at h ⊢
        unfold autoEndCheck at h ⊢
        split at h
        · simp at h
        · rename_i hcond
          rw [if_neg hcond]
          exact Or.inr (Or.inr (Or.inr ⟨now, rfl, rfl⟩))
      · rw [timerStep, if_neg hg]
        exact Or.inl rfl

/-- Main invariant for the amended C1: along a chronological, non-ending
run, `startTime` is constant, `elapsedSeconds` never exceeds what the last
instant allows, and it never decreases. -/
theorem run_elapsed_mono (tr : List TimerEvent) :
    ∀ (s : TimerState) (b : Nat), Chrono b tr →
      s.elapsedSeconds ≤ (b - s.startTime) / 1000 →
      (runTimer s tr).endCount = s.endCount →
      s.elapsedSeconds ≤ (runTimer s tr).elapsedSeconds ∧
      (runTimer s tr).elapsedSeconds ≤
        (chronoBound b tr - (runTimer s tr).startTime) / 1000 ∧
      (runTimer s tr).startTime = s.startTime := by
  induction tr with
  | nil =>
      intro s b _ hE _
      exact ⟨le_refl _, hE, rfl⟩
  | cons e tr ih =>
      intro s b hch hE hcount
      obtain ⟨hbe, hch'⟩ := hch
      have hrun : runTimer s (e :: tr) = runTimer (timerStep s e).1 tr := rfl
      have hstep_eq : (timerStep s e).1.endCount = s.endCount := by
        have h1 := endCount_step_le s e
        have h2 := endCount_run_le tr (timerStep s e).1
        rw [hrun] at hcount
        omega
      have hcount' : (runTimer (timerStep s e).1 tr).endCount =
          (timerStep s e).1.endCount := by
        rw [hrun] at hcount
        rw [hcount, hstep_eq]
      have hkey : (timerStep s e).1.startTime = s.startTime ∧
          s.elapsedSeconds ≤ (timerStep s e).1.elapsedSeconds ∧
          (timerStep s e).1.elapsedSeconds ≤
            (evTime e - s.startTime) / 1000 := by
        rcases step_no_fire s e hstep_eq with hid | ⟨now, rfl, hs⟩ |
            ⟨now, rfl, hs⟩ | ⟨now, rfl, hs⟩
        · rw [hid]
          exact ⟨rfl, le_refl _,
            le_trans hE (Nat.div_le_div_right (Nat.sub_le_sub_right hbe _))⟩
        · rw [hs]
          refine ⟨rfl, ?_, ?_⟩
          · exact le_trans hE (Nat.div_le_div_right (Nat.sub_le_sub_right hbe _))
          · exact le_refl _
        · rw [hs]
          exact ⟨rfl, le_refl _,
            le_trans hE (Nat.div_le_div_right (Nat.sub_le_sub_right hbe _))⟩
        · rw [hs]
          exact ⟨rfl, le_refl _,
            le_trans hE (Nat.div_le_div_right (Nat.sub_le_sub_right hbe _))⟩
      obtain ⟨hst, hmono, hbound⟩ := hkey
      have hih := ih (timerStep s e).1 (evTime e) hch' (by rw [hst]; exact hbound)
        hcount'
      obtain ⟨ih1, ih2, ih3⟩ := hih
      refine ⟨le_trans hmono (by rw [hrun] at *; exact ih1), ?_, ?_⟩
      · rw [hrun]
        have : chronoBound b (e :: tr) = chronoBound (evTime e) tr := rfl
        rw [this]
        exact ih2
      · rw [hrun, ih3, hst]

/-- Theorem for claim C1 as amended: `elapsedSeconds` is non-decreasing
along any chronological session trace without auto-end, and it is strictly
frozen while `status=paused` (a tick during pause changes nothing); but
`startTime` is set only at session start and never adjusted again — in
particular not at resume — so the first tick after a resume jumps the count
to full wall-clock elapsed time, counting the paused interval instead of
continuing from the frozen value. -/
theorem C1_elapsed_behaviour :
    (∀ (s : TimerState) (tr : List TimerEvent),
        (runTimer s tr).startTime = s.startTime ∨
        (runTimer s tr).endCount ≠ s.endCount) ∧
    (∀ (s : TimerState) (now : Nat), s.isPaused = true →
        (timerStep s (TimerEvent.tick now)).1 = s) ∧
    (∀ (t0 : Nat) (pre suf : List TimerEvent), Chrono t0 (pre ++ suf) →
        (runTimer (initTimer t0) (pre ++ suf)).endCount = 0 →
        (runTimer (initTimer t0) pre).elapsedSeconds ≤
          (runTimer (initTimer t0) (pre ++ suf)).elapsedSeconds) ∧
    (∀ (s : TimerState) (now : Nat),
        s.timerActive = true → s.isPaused = false →
        (timerStep s (TimerEvent.tick now)).1.elapsedSeconds =
          (now - s.startTime) / 1000 ∨
        (timerStep s (TimerEvent.tick now)).2 = true) := by
  refine ⟨?_, ?_, ?_, ?_⟩
  · intro s tr
    by_cases h : (runTimer s tr).endCount = s.endCount
    · left
      induction tr generalizing s with
      | nil => rfl
      | cons e tr ih =>
          have hrun : runTimer s (e :: tr) = runTimer (timerStep s e).1 tr := rfl
          have hstep_eq : (timerStep s e).1.endCount = s.endCount := by
            have h1 := endCount_step_le s e
            have h2 := endCount_run_le tr (timerStep s e).1
            rw [hrun] at h
            omega
          have hst : (timerStep s e).1.startTime = s.startTime := by
            rcases step_no_fire s e hstep_eq with hid | ⟨now, he, hs⟩ |
                ⟨now, he, hs⟩ | ⟨now, he, hs⟩ <;>
              first
                | (rw [hid])
                | (rw [hs])
          rw [hrun, ih (timerStep s e).1 (by rw [hrun] at h; rw [h, hstep_eq]),
            hst]
    · right; exact h
  · intro s now hp
    simp [timerStep, hp]
  · intro t0 pre suf hch hend
    rw [runTimer_append] at hend ⊢
    obtain ⟨hch1, hch2⟩ := chrono_append pre suf t0 hch
    have hpre0 : (runTimer (initTimer t0) pre).endCount = 0 := by
      have h1 := endCount_run_le pre (initTimer t0)
      have h2 := endCount_run_le suf (runTimer (initTimer t0) pre)
      simp only [initTimer] at h1
      omega
    have hEpre := run_elapsed_mono pre (initTimer t0) t0 hch1
      (by simp [initTimer]) (by rw [hpre0]; rfl)
    obtain ⟨_, hE2, _⟩ := hEpre
    have hEsuf := run_elapsed_mono suf (runTimer (initTimer t0) pre)
      (chronoBound t0 pre) hch2 hE2
      (by rw [hend, hpre0])
    exact hEsuf.1
  · intro s now hact hp
    rw [timerStep, if_pos (by rw [hact, hp]; rfl)]
    unfold autoEndCheck
    split
    · right; rfl
    · left; rfl

/-- Witness for the amended C1 at a concrete two-tick trace: elapsed after
the first tick (5 s) is at most elapsed after both ticks (9 s), the frozen
state really ignores a tick, and `startTime` is still the session start. -/
theorem C1_elapsed_behaviour_witness :
    ((runTimer (initTimer 0) [TimerEvent.tick 5000]).elapsedSeconds ≤
      (runTimer (initTimer 0)
        [TimerEvent.tick 5000, TimerEvent.tick 9000]).elapsedSeconds) ∧
    (timerStep { initTimer 0 with isPaused := true }
        (TimerEvent.tick 7000)).1 = { initTimer 0 with isPaused := true } :=
  ⟨C1_elapsed_behaviour.2.2.1 0 [TimerEvent.tick 5000] [TimerEvent.tick 9000]
      (by decide) (by decide),
   C1_elapsed_behaviour.2.1 { initTimer 0 with isPaused := true } 7000 rfl⟩

/-- Invariant used for the at-most-once part of C2: once the session has
auto-ended, the channel is closed and the interval cleared, so no further
event can fire it. -/
def EndInv (s : TimerState) : Prop :=
  s.endCount ≤ 1 ∧
  (s.endCount = 1 → s.channelOpen = false ∧ s.timerActive = false)

/-- One step preserves `EndInv`. -/
theorem endInv_step (s : TimerState) (e : TimerEvent) (h : EndInv s) :
    EndInv (timerStep s e).1 := by
  obtain ⟨h1, h2⟩ := h
  cases e with
  | tick now =>
      by_cases hg : s.timerActive && !s.isPaused
      · rw [timerStep, if_pos hg]
        unfold autoEndCheck
        split
        · refine ⟨?_, fun _ => ⟨rfl, rfl⟩⟩
          have : s.endCount = 0 := by
            rcases Nat.lt_or_ge s.endCount 1 with h | h
            · omega
            · exfalso
              have := (h2 (by omega)).2
              simp only [Bool.and_eq_true] at hg
              rw [hg.1] at this
              exact Bool.noConfusion this
          simp [this]
        · exact ⟨h1, h2⟩
      · rw [timerStep, if_neg hg]
        exact ⟨h1, h2⟩
  | pause now =>
      by_cases hg : s.channelOpen
      · rw [timerStep, if_pos hg]
        unfold autoEndCheck
        split
        · rename_i hcond
          simp at hcond
        · exact ⟨h1, h2⟩
      · rw [timerStep, if_neg hg]
        exact ⟨h1, h2⟩
  | resume now =>
      by_cases hg : s.channelOpen
      · rw [timerStep, if_pos hg]
        unfold autoEndCheck
        split
        · refine ⟨?_, fun _ => ⟨rfl, rfl⟩⟩
          have : s.endCount = 0 := by
            rcases Nat.lt_or_ge s.endCount 1 with h | h
            · omega
            · exact absurd hg (by rw [(h2 (by omega)).1]; exact Bool.noConfusion)
          simp [this]
        · exact ⟨h1, h2⟩
      · rw [timerStep, if_neg hg]
        exact ⟨h1, h2⟩

/-- A run preserves `EndInv`. -/
theorem endInv_run (tr : List TimerEvent) :
    ∀ s : TimerState, EndInv s → EndInv (runTimer s tr) := by
  induction tr with
  | nil => intro s h; exact h
  | cons e tr ih => intro s h; exact ih (timerStep s e).1 (endInv_step s e h)

/-- Theorem for claim C2 as amended: automatic termination fires at most
once per session; it fires exactly when `elapsedSeconds` has reached the
35-minute ceiling with `status=connected` at that moment; no tick fires it
while paused (the counter is frozen and the status is `paused`, so pausing
delays it) and pausing itself never fires it — but, per the C2
counterexample, the paused interval does count toward the ceiling once the
session resumes. -/
theorem C2_auto_end_once :
    (∀ (t0 : Nat) (tr : List TimerEvent),
        (runTimer (initTimer t0) tr).endCount ≤ 1) ∧
    (∀ s : TimerState, (autoEndCheck s).2 = true ↔
        (35 * 60 ≤ s.elapsedSeconds ∧ s.status = SessionStatus.connected)) ∧
    (∀ (s : TimerState) (now : Nat), s.isPaused = true →
        (timerStep s (TimerEvent.tick now)).2 = false ∧
        (timerStep s (TimerEvent.tick now)).1.elapsedSeconds =
          s.elapsedSeconds) ∧
    (∀ (s : TimerState) (now : Nat),
        (timerStep s (TimerEvent.pause now)).2 = false) := by
  refine ⟨?_, ?_, ?_, ?_⟩
  · intro t0 tr
    exact (endInv_run tr (initTimer t0) ⟨by simp [initTimer], by simp [initTimer]⟩).1
  · intro s
    unfold autoEndCheck
    split
    · rename_i hcond
      simp only [Bool.and_eq_true, decide_eq_true_eq, beq_iff_eq] at hcond
      exact ⟨fun _ => ⟨hcond.1, hcond.2⟩, fun _ => rfl⟩
    · rename_i hcond
      simp only [Bool.and_eq_true, decide_eq_true_eq, beq_iff_eq] at hcond
      constructor
      · intro h; exact Bool.noConfusion h
      · intro ⟨ha, hb⟩; exact absurd ⟨ha, hb⟩ hcond
  · intro s now hp
    simp [timerStep, hp]
  · intro s now
    by_cases hg : s.channelOpen
    · rw [timerStep, if_pos hg]
      unfold autoEndCheck
      split
      · rename_i hcond; simp at hcond
      · rfl
    · rw [timerStep, if_neg hg]

/-- Witness for the amended C2: on `demoCeilingTrace` auto-end fired
exactly once, and a tick while paused fires nothing. -/
theorem C2_auto_end_once_witness :
    (runTimer (initTimer 0) demoCeilingTrace).endCount ≤ 1 ∧
    (timerStep { initTimer 0 with isPaused := true }
        (TimerEvent.tick 7000)).2 = false :=
  ⟨C2_auto_end_once.1 0 demoCeilingTrace,
   (C2_auto_end_once.2.2.1 { initTimer 0 with isPaused := true } 7000 rfl).1⟩

end VoiceTutor
